import Mathlib

/-!
Verification of the PartyHub event-extraction pipeline
(`multi_account_event_extractor.py`).

The development shallowly embeds the pipeline's core functions:
`extract_date_from_text`, `extract_time_from_text`, `is_future_event`,
`extract_event_details`, `remove_duplicate_events` and
`filter_future_events`, over an explicit reference clock (Python's
`datetime.now()` threaded as a parameter), and proves or refutes the
frozen specification claims about them.
-/

/-! ## Calendar model (proleptic Gregorian, as Python `datetime`) -/

/-- Gregorian leap-year test, as Python's `calendar.isleap` /
`datetime` internals. -/
def isLeap (y : Nat) : Bool := y % 4 == 0 && (y % 100 != 0 || y % 400 == 0)

/-- Days in a month of a given year; `0` for an out-of-range month. -/
def daysInMonth (y m : Nat) : Nat :=
  match m with
  | 1 => 31 | 2 => if isLeap y then 29 else 28 | 3 => 31 | 4 => 30
  | 5 => 31 | 6 => 30 | 7 => 31 | 8 => 31 | 9 => 30 | 10 => 31
  | 11 => 30 | 12 => 31 | _ => 0

/-- Days in the months strictly before month `m` of year `y`
(`m` is 1-based; `daysBeforeMonth y 1 = 0`). -/
def daysBeforeMonth (y : Nat) : Nat → Nat
  | 0 => 0
  | m + 1 => if m = 0 then 0 else daysBeforeMonth y m + daysInMonth y m

/-- Days strictly before January 1 of year `y` in the proleptic Gregorian
calendar (the `_days_before_year` of CPython's `datetime`). -/
def daysBeforeYear (y : Nat) : Nat :=
  365 * (y - 1) + (y - 1) / 4 + (y - 1) / 400 - (y - 1) / 100

/-- Length of year `y` in days. -/
def daysInYear (y : Nat) : Nat := if isLeap y then 366 else 365

/-- A Python `datetime`: a calendar date plus seconds since midnight
(sub-second precision is irrelevant to every function modelled here). -/
structure PyDatetime where
  year : Nat
  month : Nat
  day : Nat
  secs : Nat
deriving DecidableEq

/-- A `PyDatetime` whose fields are in range.  (Python additionally caps
the year at 9999; that cap is modelled in `mkDatetime`, which embeds the
`datetime` constructor, and is deliberately not part of validity so that
day arithmetic stays total.) -/
def ValidDT (t : PyDatetime) : Prop :=
  1 ≤ t.year ∧ 1 ≤ t.month ∧ t.month ≤ 12 ∧ 1 ≤ t.day ∧
    t.day ≤ daysInMonth t.year t.month ∧ t.secs < 86400

instance (t : PyDatetime) : Decidable (ValidDT t) := by
  unfold ValidDT; infer_instance

/-- Proleptic-Gregorian ordinal of the date part (`date.toordinal` in
Python: 0001-01-01 has ordinal 1). -/
def ordOf (t : PyDatetime) : Nat :=
  daysBeforeYear t.year + daysBeforeMonth t.year t.month + t.day

/-- Seconds since 0001-01-01 00:00; Python's `datetime` comparisons agree
with comparisons of this quantity. -/
def toSecs (t : PyDatetime) : Nat := ordOf t * 86400 + t.secs

/-- Python's `datetime.weekday()`: Monday = 0 … Sunday = 6. -/
def weekdayOf (t : PyDatetime) : Nat := (ordOf t + 6) % 7

/-- The next calendar day (time of day preserved). -/
def succDay (t : PyDatetime) : PyDatetime :=
  if t.day < daysInMonth t.year t.month then
    { t with day := t.day + 1 }
  else if t.month < 12 then
    { t with month := t.month + 1, day := 1 }
  else
    { year := t.year + 1, month := 1, day := 1, secs := t.secs }

/-- `t + timedelta(days := k)` for a nonnegative `k`. -/
def addDays (t : PyDatetime) : Nat → PyDatetime
  | 0 => t
  | k + 1 => succDay (addDays t k)

/-- The `datetime(year, month, day)` constructor: midnight on success,
`none` when Python would raise `ValueError`. -/
def mkDatetime (y m d : Nat) : Option PyDatetime :=
  if 1 ≤ y ∧ y ≤ 9999 ∧ 1 ≤ m ∧ m ≤ 12 ∧ 1 ≤ d ∧ d ≤ daysInMonth y m then
    some ⟨y, m, d, 0⟩
  else
    none

/-- Python `%` on integers (sign follows the divisor), for divisor `> 0`
this is `Int.emod`. -/
def pyMod (a b : Int) : Int := Int.emod a b

/-- `(a - b).days` for Python datetimes `a`, `b`: the timedelta day
count, which floors towards negative infinity. -/
def deltaDays (a b : PyDatetime) : Int :=
  Int.fdiv ((toSecs a : Int) - (toSecs b : Int)) 86400

/-! ## String utilities (Python `str` operations, ASCII) -/

/-- Python regex `\w` (word character), ASCII range. -/
def isWordChar (c : Char) : Bool := c.isAlphanum || c == '_'

/-- Python `str.lower()` (ASCII). -/
def pyLower (s : String) : String := String.mk (s.data.map Char.toLower)

/-- Python `str.strip()`: drop leading and trailing whitespace. -/
def stripChars (cs : List Char) : List Char :=
  ((cs.dropWhile Char.isWhitespace).reverse.dropWhile Char.isWhitespace).reverse

/-- Python `str.strip()` on strings. -/
def pyStrip (s : String) : String := String.mk (stripChars s.data)

/-- Split on a single separator character (`str.split(sep)` /
`String.splitOn` for a one-character separator). -/
def splitOnChar (sep : Char) : List Char → List (List Char)
  | [] => [[]]
  | c :: rest =>
    match splitOnChar sep rest with
    | [] => [[]]
    | g :: gs => if c == sep then [] :: g :: gs else (c :: g) :: gs

/-- Python `needle in hay` substring containment. -/
def strInAux (needle : List Char) : List Char → Bool
  | [] => needle.isEmpty
  | c :: rest => needle.isPrefixOf (c :: rest) || strInAux needle rest

/-- Python `needle in hay` on strings. -/
def strIn (needle hay : String) : Bool := strInAux needle.data hay.data

/-- Numeric value of a digit string (Python `int` on a digit capture). -/
def natOfDigits (ds : List Char) : Nat :=
  ds.foldl (fun a c => a * 10 + (c.toNat - 48)) 0

/-- Leading digit run and its remainder. -/
def digitSpan (cs : List Char) : List Char × List Char :=
  (cs.takeWhile Char.isDigit, cs.dropWhile Char.isDigit)

/-- Leading whitespace run and its remainder (regex `\s*`). -/
def wsSpan (cs : List Char) : List Char × List Char :=
  (cs.takeWhile Char.isWhitespace, cs.dropWhile Char.isWhitespace)

/-- A `\b` holds between the previous character and this remainder:
the remainder is empty or starts with a non-word character. -/
def okAfter : List Char → Bool
  | [] => true
  | c :: _ => !isWordChar c

/-- `needle` matches here with a word boundary after it. -/
def boundedAt (needle hay : List Char) : Bool :=
  needle.isPrefixOf hay && okAfter (hay.drop needle.length)

/-- Scan for `\bneedle\b` tracking whether the previous character was a
word character (needles start with a word character). -/
def boundedInAux (needle : List Char) : Bool → List Char → Bool
  | _, [] => false
  | prevW, c :: rest =>
    (!prevW && boundedAt needle (c :: rest)) ||
      boundedInAux needle (isWordChar c) rest

/-- Word-bounded substring search, regex `\bneedle\b`. -/
def boundedIn (needle hay : String) : Bool :=
  boundedInAux needle.data false hay.data

/-! ## Date-pattern scanners (the regexes of `self.date_patterns`) -/

/-- Try pattern 1, `\b(\d{1,2})S(\d{1,2})S(\d{4})\b` (`S` a slash or dash), at this
position; groups are returned in regex order (day, month, year). -/
def p1At (cs : List Char) : Option (Nat × Nat × Nat) :=
  let (r1, s1) := digitSpan cs
  if r1.isEmpty || r1.length > 2 then none
  else
    match s1 with
    | sep1 :: s2 =>
      if sep1 == '/' || sep1 == '-' then
        let (r2, s3) := digitSpan s2
        if r2.isEmpty || r2.length > 2 then none
        else
          match s3 with
          | sep2 :: s4 =>
            if sep2 == '/' || sep2 == '-' then
              let (r3, s5) := digitSpan s4
              if r3.length = 4 && okAfter s5 then
                some (natOfDigits r1, natOfDigits r2, natOfDigits r3)
              else none
            else none
          | [] => none
      else none
    | [] => none

/-- First match of pattern 1 (`re.findall` takes matches left to right). -/
def findP1Aux : Bool → List Char → Option (Nat × Nat × Nat)
  | _, [] => none
  | prevW, c :: rest =>
    match (if !prevW && c.isDigit then p1At (c :: rest) else none) with
    | some v => some v
    | none => findP1Aux (isWordChar c) rest

/-- `re.findall(P1, s)[0]`, or `none` when pattern 1 has no match. -/
def findP1 (s : String) : Option (Nat × Nat × Nat) := findP1Aux false s.data

/-- Try pattern 2, `\b(\d{1,2})S(\d{1,2})\b` (`S` a slash or dash), at this position;
groups in regex order (day, month). -/
def p2At (cs : List Char) : Option (Nat × Nat) :=
  let (r1, s1) := digitSpan cs
  if r1.isEmpty || r1.length > 2 then none
  else
    match s1 with
    | sep1 :: s2 =>
      if sep1 == '/' || sep1 == '-' then
        let (r2, s3) := digitSpan s2
        if r2.isEmpty || r2.length > 2 then none
        else if okAfter s3 then some (natOfDigits r1, natOfDigits r2)
        else none
      else none
    | [] => none

/-- First match of pattern 2. -/
def findP2Aux : Bool → List Char → Option (Nat × Nat)
  | _, [] => none
  | prevW, c :: rest =>
    match (if !prevW && c.isDigit then p2At (c :: rest) else none) with
    | some v => some v
    | none => findP2Aux (isWordChar c) rest

/-- `re.findall(P2, s)[0]`, or `none` when pattern 2 has no match. -/
def findP2 (s : String) : Option (Nat × Nat) := findP2Aux false s.data

/-- The alternatives of `next\s+(?:week|month|year|monday|...)`. -/
def p7Alternatives : List String :=
  ["week", "month", "year", "monday", "tuesday", "wednesday", "thursday",
   "friday", "saturday", "sunday"]

/-- Try pattern 7, `\b(today|tomorrow|next\s+(?:week|month|year|<weekday>))\b`,
at this position. -/
def p7At (cs : List Char) : Bool :=
  boundedAt "today".data cs || boundedAt "tomorrow".data cs ||
    ("next".data.isPrefixOf cs &&
      (let rest := cs.drop 4
       let (ws, rest2) := wsSpan rest
       !ws.isEmpty && p7Alternatives.any (fun w => boundedAt w.data rest2)))

def matchesP7Aux : Bool → List Char → Bool
  | _, [] => false
  | prevW, c :: rest =>
    (!prevW && p7At (c :: rest)) || matchesP7Aux (isWordChar c) rest

/-- Does pattern 7 (relative-date keywords) match anywhere? -/
def matchesP7 (s : String) : Bool := matchesP7Aux false s.data

/-- `this`/`next` followed by whitespace and `weekend\b`. -/
def p8After (w cs : List Char) : Bool :=
  w.isPrefixOf cs &&
    (let rest := cs.drop w.length
     let (ws, rest2) := wsSpan rest
     !ws.isEmpty && boundedAt "weekend".data rest2)

def p8At (cs : List Char) : Bool :=
  p8After "this".data cs || p8After "next".data cs

def matchesP8Aux : Bool → List Char → Bool
  | _, [] => false
  | prevW, c :: rest =>
    (!prevW && p8At (c :: rest)) || matchesP8Aux (isWordChar c) rest

/-- Does pattern 8, `\b(this|next)\s+weekend\b`, match anywhere? -/
def matchesP8 (s : String) : Bool := matchesP8Aux false s.data

def weekdayNames : List String :=
  ["monday", "tuesday", "wednesday", "thursday", "friday", "saturday",
   "sunday"]

/-- Does pattern 9, `\b(monday|tuesday|...|sunday)\b`, match anywhere? -/
def matchesP9 (s : String) : Bool := weekdayNames.any (fun w => boundedIn w s)

/-- `re.search(r'\b(\d{1,2})\b', s)`: first maximal digit run of length
one or two delimited by word boundaries. -/
def dayAt (cs : List Char) : Option Nat :=
  let (r, s) := digitSpan cs
  if !r.isEmpty && r.length ≤ 2 && okAfter s then some (natOfDigits r)
  else none

def daySearchAux : Bool → List Char → Option Nat
  | _, [] => none
  | prevW, c :: rest =>
    match (if !prevW && c.isDigit then dayAt (c :: rest) else none) with
    | some v => some v
    | none => daySearchAux (isWordChar c) rest

def daySearch (s : String) : Option Nat := daySearchAux false s.data

/-- `re.search(r'\b(20\d{2})\b', s)`: first bounded four-digit run
starting `20`. -/
def yearAt (cs : List Char) : Option Nat :=
  let (r, s) := digitSpan cs
  match r with
  | '2' :: '0' :: _ =>
    if r.length = 4 && okAfter s then some (natOfDigits r) else none
  | _ => none

def yearSearchAux : Bool → List Char → Option Nat
  | _, [] => none
  | prevW, c :: rest =>
    match (if !prevW && c.isDigit then yearAt (c :: rest) else none) with
    | some v => some v
    | none => yearSearchAux (isWordChar c) rest

def yearSearch (s : String) : Option Nat := yearSearchAux false s.data

/-! ## Time-pattern scanners -/

/-- Try `\b(\d{1,2}):(\d{2})\s*(am|pm)\b` at this position: hour value,
minute digits as captured, and whether the period is `pm`. -/
def t1At (cs : List Char) : Option (Nat × String × Bool) :=
  let (r1, s1) := digitSpan cs
  if r1.isEmpty || r1.length > 2 then none
  else
    match s1 with
    | ':' :: s2 =>
      let (r2, s3) := digitSpan s2
      if r2.length = 2 then
        let (_, s4) := wsSpan s3
        if "am".data.isPrefixOf s4 && okAfter (s4.drop 2) then
          some (natOfDigits r1, String.mk r2, false)
        else if "pm".data.isPrefixOf s4 && okAfter (s4.drop 2) then
          some (natOfDigits r1, String.mk r2, true)
        else none
      else none
    | _ => none

def findT1Aux : Bool → List Char → Option (Nat × String × Bool)
  | _, [] => none
  | prevW, c :: rest =>
    match (if !prevW && c.isDigit then t1At (c :: rest) else none) with
    | some v => some v
    | none => findT1Aux (isWordChar c) rest

def findT1 (s : String) : Option (Nat × String × Bool) := findT1Aux false s.data

/-- Try `\b(\d{1,2})\s*(am|pm)\b` at this position. -/
def t2At (cs : List Char) : Option (Nat × Bool) :=
  let (r1, s1) := digitSpan cs
  if r1.isEmpty || r1.length > 2 then none
  else
    let (_, s2) := wsSpan s1
    if "am".data.isPrefixOf s2 && okAfter (s2.drop 2) then
      some (natOfDigits r1, false)
    else if "pm".data.isPrefixOf s2 && okAfter (s2.drop 2) then
      some (natOfDigits r1, true)
    else none

def findT2Aux : Bool → List Char → Option (Nat × Bool)
  | _, [] => none
  | prevW, c :: rest =>
    match (if !prevW && c.isDigit then t2At (c :: rest) else none) with
    | some v => some v
    | none => findT2Aux (isWordChar c) rest

def findT2 (s : String) : Option (Nat × Bool) := findT2Aux false s.data

/-! ## `extract_date_from_text`

The Python loop tries the patterns of `self.date_patterns` in order, but
the branch that handles a match is selected by an `if`/`elif` chain on
the *pattern string*.  Because the relative-keyword pattern (pattern 7)
contains the literal text `month`, it is routed to the named-month
branch (`elif 'month' in pattern:`), and the named-month patterns 3-6
are routed to no branch at all.  The stages below reproduce exactly the
reachable control flow: pattern 1, pattern 2, pattern 7 (month branch),
pattern 8 (weekend), pattern 9 (bare weekday); a failed stage falls
through to the next one, as the Python `continue`/fall-through does. -/

/-- Month number from the first month-name substring test that fires
(`'january' in text_lower`, …, in source order). -/
def monthFromText (tl : String) : Option Nat :=
  if strIn "january" tl then some 1
  else if strIn "february" tl then some 2
  else if strIn "march" tl then some 3
  else if strIn "april" tl then some 4
  else if strIn "may" tl then some 5
  else if strIn "june" tl then some 6
  else if strIn "july" tl then some 7
  else if strIn "august" tl then some 8
  else if strIn "september" tl then some 9
  else if strIn "october" tl then some 10
  else if strIn "november" tl then some 11
  else if strIn "december" tl then some 12
  else none

/-- The `day_map` iteration of the bare-weekday branch: first weekday
name occurring as a substring, in insertion order. -/
def weekdayFromText (tl : String) : Option Nat :=
  if strIn "monday" tl then some 0
  else if strIn "tuesday" tl then some 1
  else if strIn "wednesday" tl then some 2
  else if strIn "thursday" tl then some 3
  else if strIn "friday" tl then some 4
  else if strIn "saturday" tl then some 5
  else if strIn "sunday" tl then some 6
  else none

/-- Pattern-2 branch body: infer the reference year, roll forward one
year when the date lies strictly in the past; `none` when the
`datetime` constructor raises (caught and turned into fall-through). -/
def branch2 (now : PyDatetime) (day month : Nat) : Option PyDatetime :=
  match mkDatetime now.year month day with
  | none => none
  | some p =>
    if toSecs p < toSecs now then mkDatetime (now.year + 1) month day
    else some p

/-- Stage for pattern 9 (bare weekday names): next strict occurrence of
the first `day_map` name found (offset `(day - weekday) % 7`, with `0`
promoted to a full week).  Patterns 10/11 (times) have no handler in
the dispatch chain, so after this stage the function returns `none`. -/
def dateStage5 (tl : String) (now : PyDatetime) : Option PyDatetime :=
  if matchesP9 tl then
    match weekdayFromText tl with
    | some dn =>
      let da : Int := pyMod ((dn : Int) - (weekdayOf now : Int)) 7
      let da := if da = 0 then 7 else da
      some (addDays now da.toNat)
    | none => none
  else none

/-- Stage for pattern 8 (`this|next weekend`).  Both branches use the
offset to the coming Saturday; `next weekend` promotes `0` to `7`,
`this weekend` resolves to `now` itself when today is Saturday. -/
def dateStage4 (tl : String) (now : PyDatetime) : Option PyDatetime :=
  if matchesP8 tl then
    if strIn "next weekend" tl then
      let da : Int := pyMod (5 - (weekdayOf now : Int)) 7
      let da := if da = 0 then 7 else da
      some (addDays now da.toNat)
    else if strIn "this weekend" tl then
      let da : Int := pyMod (5 - (weekdayOf now : Int)) 7
      if da = 0 then some now else some (addDays now da.toNat)
    else dateStage5 tl now
  else dateStage5 tl now

/-- Stage for pattern 7.  Because the pattern string contains `month`,
the match is handled by the named-month branch: month from a month-name
substring, day from `\b(\d{1,2})\b`, optional year from `\b(20\d{2})\b`,
with a one-year forward roll only when no explicit year was present.
Any `ValueError` from the `datetime` constructor falls through. -/
def dateStage3 (tl text : String) (now : PyDatetime) : Option PyDatetime :=
  if matchesP7 tl then
    match monthFromText tl with
    | none => dateStage4 tl now
    | some mo =>
      match daySearch text with
      | none => dateStage4 tl now
      | some dd =>
        match yearSearch text with
        | some yy =>
          match mkDatetime yy mo dd with
          | some p => some p
          | none => dateStage4 tl now
        | none =>
          match mkDatetime now.year mo dd with
          | some p =>
            if toSecs p < toSecs now then
              match mkDatetime (now.year + 1) mo dd with
              | some p2 => some p2
              | none => dateStage4 tl now
            else some p
          | none => dateStage4 tl now
  else dateStage4 tl now

/-- Stage for pattern 2 (day/month without year). -/
def dateStage2 (tl text : String) (now : PyDatetime) : Option PyDatetime :=
  match findP2 tl with
  | some (d, m) =>
    match branch2 now d m with
    | some p => some p
    | none => dateStage3 tl text now
  | none => dateStage3 tl text now

/-- `extract_date_from_text(self, text)` with `datetime.now()` passed
explicitly as `now`. -/
def extract_date_from_text (text : String) (now : PyDatetime) :
    Option PyDatetime :=
  let tl := pyLower text
  match findP1 tl with
  | some (d, m, y) =>
    match mkDatetime y m d with
    | some p => some p
    | none => dateStage2 tl text now
  | none => dateStage2 tl text now

/-! ## `extract_time_from_text` -/

/-- 12-hour to 24-hour conversion of the branch body. -/
def adjustHour (h : Nat) (pm : Bool) : Nat :=
  if pm && h ≠ 12 then h + 12
  else if !pm && h = 12 then 0
  else h

/-- `f"{n:02d}"`. -/
def pad2 (n : Nat) : String :=
  if n < 10 then "0" ++ toString n else toString n

/-- `f"{n:04d}"` (what `strftime('%Y')` produces for our years). -/
def pad4 (n : Nat) : String :=
  if n < 10 then "000" ++ toString n
  else if n < 100 then "00" ++ toString n
  else if n < 1000 then "0" ++ toString n
  else toString n

/-- `extract_time_from_text(self, text)`. -/
def extract_time_from_text (text : String) : Option String :=
  let tl := pyLower text
  match findT1 tl with
  | some (h, mins, pm) => some (pad2 (adjustHour h pm) ++ ":" ++ mins)
  | none =>
    match findT2 tl with
    | some (h, pm) => some (pad2 (adjustHour h pm) ++ ":00")
    | none => none

/-! ## `is_future_event` -/

/-- An apostrophe (U+0027), built without an apostrophe literal. -/
def apos : String := String.singleton (Char.ofNat 39)

/-- `self.event_keywords`, verbatim from the constructor. -/
def event_keywords : List String :=
  ["event", "party", "concert", "show", "festival", "gathering", "meetup",
   "launch", "opening", "premiere", "exhibition", "workshop", "seminar",
   "conference", "meet", "celebration", "ceremony", "reception", "dinner",
   "lunch", "brunch", "drunch", "ball", "masquerade", "karaoke", "live",
   "performance", "gig", "tour", "tournament", "competition", "race",
   "marathon", "walk", "run", "challenge", "contest", "auction", "sale",
   "fair", "market", "bazaar", "expo", "convention", "summit", "forum"]

def locationCueWords : List String :=
  ["at ", "in ", "venue", "location", "place", "club", "restaurant",
   "cafe", "bar"]

def actionCueWords : List String :=
  ["join", "come", "attend", "be there", "don" ++ apos ++ "t miss",
   "save the date", "rsvp"]

/-- `is_future_event(self, caption)`. -/
def is_future_event (caption : String) (now : PyDatetime) : Bool :=
  let cl := pyLower caption
  let has_event_keyword := event_keywords.any (fun k => strIn k cl)
  let has_date := (extract_date_from_text caption now).isSome
  let has_time := (extract_time_from_text caption).isSome
  let has_location := locationCueWords.any (fun w => strIn w cl)
  let has_action_words := actionCueWords.any (fun w => strIn w cl)
  has_event_keyword &&
    (has_date || has_time || has_location || has_action_words)

/-! ## `extract_event_details`: location and name extraction -/

/-- Case-insensitive literal prefix match (regex `re.IGNORECASE`). -/
def ciPrefix : List Char → List Char → Bool
  | [], _ => true
  | _ :: _, [] => false
  | p :: ps, c :: rest => (p.toLower == c.toLower) && ciPrefix ps rest

/-- Capture of `\s+([^,\n]+)` after a matched introducer: one or more
whitespace characters, then a greedy run of non-comma/non-newline
characters; when the run right after the whitespace is empty, the regex
backtracks and captures the last whitespace character itself. -/
def capAfterWs (cs : List Char) : Option (List Char) :=
  let (ws, rest) := wsSpan cs
  if ws.isEmpty then none
  else
    let body := rest.takeWhile (fun c => c != ',' && c != '\n')
    if !body.isEmpty then some body
    else if ws.length ≥ 2 then some [ws.getLastD ' ']
    else none

/-- Capture of `[:\s]+([^,\n]+)` (the `venue`/`location` introducers). -/
def capAfterColonWs (cs : List Char) : Option (List Char) :=
  let sep := cs.takeWhile (fun c => c == ':' || c.isWhitespace)
  let rest := cs.dropWhile (fun c => c == ':' || c.isWhitespace)
  if sep.isEmpty then none
  else
    let body := rest.takeWhile (fun c => c != ',' && c != '\n')
    if !body.isEmpty then some body
    else if sep.length ≥ 2 then some [sep.getLastD ':']
    else none

/-- `re.search` for a case-insensitive literal followed by a capture:
try each start position left to right. -/
def searchLit (pat : List Char) (cap : List Char → Option (List Char)) :
    List Char → Option (List Char)
  | [] => none
  | c :: rest =>
    match
      (if ciPrefix pat (c :: rest) then cap ((c :: rest).drop pat.length)
       else none) with
    | some b => some b
    | none => searchLit pat cap rest

/-- The `location_patterns` loop: first pattern that matches anywhere
wins; the captured group is `.strip()`ped by the caller. -/
def extractLocation (caption : String) : Option String :=
  let cs := caption.data
  match searchLit "at".data capAfterWs cs with
  | some b => some (pyStrip (String.mk b))
  | none =>
    match searchLit "in".data capAfterWs cs with
    | some b => some (pyStrip (String.mk b))
    | none =>
      match searchLit "venue".data capAfterColonWs cs with
      | some b => some (pyStrip (String.mk b))
      | none =>
        match searchLit "location".data capAfterColonWs cs with
        | some b => some (pyStrip (String.mk b))
        | none => none

/-- A `[A-Z][a-z]+` word: an upper-case letter followed by a non-empty
maximal lower-case run. -/
def capWord : List Char → Option (List Char × List Char)
  | [] => none
  | c :: rest =>
    if c.isUpper then
      let low := rest.takeWhile Char.isLower
      let rem := rest.dropWhile Char.isLower
      if low.isEmpty then none else some (c :: low, rem)
    else none

/-- All capture candidates of `([A-Z][a-z]+(?:\s+[A-Z][a-z]+)*)` at a
position, shortest first: entry `k` is the span of the first `k` words
(with the original inter-word whitespace) paired with the remainder. -/
def chainEntries (fuel : Nat) (acc : List Char) (cs : List Char) :
    List (List Char × List Char) :=
  match fuel with
  | 0 => []
  | fuel + 1 =>
    match capWord cs with
    | none => []
    | some (w, rem) =>
      (acc ++ w, rem) ::
        (let (ws, rem2) := wsSpan rem
         if ws.isEmpty then [] else chainEntries fuel (acc ++ w ++ ws) rem2)

/-- Does `\s+(?:cat₁|cat₂|…)` follow?  (No closing `\b` in the source
regex, so a prefix match suffices.) -/
def catFollows (cats : List String) (rem : List Char) : Bool :=
  let (ws, rem2) := wsSpan rem
  !ws.isEmpty && cats.any (fun cat => cat.data.isPrefixOf rem2)

/-- Greedy capture at one position: the longest word chain whose
remainder is `\s+` plus a category noun. -/
def namePatAt (cats : List String) (cs : List Char) : Option (List Char) :=
  ((chainEntries (cs.length + 1) [] cs).reverse.find?
      (fun e => catFollows cats e.2)).map (fun e => e.1)

/-- `re.search` of the capitalized-phrase name patterns. -/
def searchNamePat (cats : List String) : List Char → Option (List Char)
  | [] => none
  | c :: rest =>
    match namePatAt cats (c :: rest) with
    | some v => some v
    | none => searchNamePat cats rest

def nameCategoryNouns : List String :=
  ["Party", "Ball", "Event", "Show", "Concert", "Festival", "Meet",
   "Gathering"]

def nameIntroducers : List String :=
  ["Join us for", "Don" ++ apos ++ "t miss", "Be there for"]

/-- Second name pattern: an introducer phrase followed by `\s+([^,\n]+)`
(case-sensitive, as in the source). -/
def searchJoinPat : List Char → Option (List Char)
  | [] => none
  | c :: rest =>
    match
      (nameIntroducers.firstM (fun lit =>
        if lit.data.isPrefixOf (c :: rest) then
          capAfterWs ((c :: rest).drop lit.length)
        else none)) with
    | some v => some v
    | none => searchJoinPat rest

/-- The `name_patterns` loop: first matching pattern wins, captured
group `.strip()`ped. -/
def extractNameRaw (caption : String) : Option String :=
  match searchNamePat nameCategoryNouns caption.data with
  | some v => some (pyStrip (String.mk v))
  | none =>
    match searchJoinPat caption.data with
    | some v => some (pyStrip (String.mk v))
    | none =>
      match searchNamePat ["Edition"] caption.data with
      | some v => some (pyStrip (String.mk v))
      | none => none

/-- First-line fallback: the stripped first line, when its length is
strictly between 5 and 100. -/
def firstLineName (caption : String) : Option String :=
  let fl := pyStrip (String.mk (caption.data.takeWhile (fun c => c != '\n')))
  if 5 < fl.data.length ∧ fl.data.length < 100 then some fl else none

/-- Name resolution of `extract_event_details`: patterns, then the
first-line fallback when the pattern result is falsy, then the
`'Untitled Event'` placeholder. -/
def resolveName (caption : String) : String :=
  let fromPatterns := extractNameRaw caption
  let withFallback :=
    match fromPatterns with
    | some s => if s = "" then firstLineName caption else some s
    | none => firstLineName caption
  match withFallback with
  | some s => if s = "" then "Untitled Event" else s
  | none => "Untitled Event"

/-! ## Event records and the pipeline tail -/

/-- The event dict built by `extract_event_details` (and mutated by
`remove_duplicate_events`): `source_accounts` is absent (`none`) until
a merge creates it. -/
structure PyEvent where
  event_name : String
  date : String
  time : String
  location : String
  caption : String
  source_account : String
  source_accounts : Option (List String)
  days_until_event : Int
  instagram_url : Option String
deriving DecidableEq

/-- `event_date.strftime('%Y-%m-%d')`. -/
def fmtDate (t : PyDatetime) : String :=
  pad4 t.year ++ "-" ++ pad2 t.month ++ "-" ++ pad2 t.day

/-- `datetime.strptime(s, '%Y-%m-%d')`: `none` when Python raises
`ValueError`. -/
def parseYMD (s : String) : Option PyDatetime :=
  match splitOnChar '-' s.data with
  | [ys, ms, ds] =>
    if !ys.isEmpty && ys.length ≤ 4 && ys.all Char.isDigit &&
       !ms.isEmpty && ms.length ≤ 2 && ms.all Char.isDigit &&
       !ds.isEmpty && ds.length ≤ 2 && ds.all Char.isDigit then
      mkDatetime (natOfDigits ys) (natOfDigits ms) (natOfDigits ds)
    else none
  | _ => none

/-- `extract_event_details(self, caption, username, instagram_url)`,
with `datetime.now()` passed explicitly as `now`. -/
def extract_event_details (caption username : String)
    (instagram_url : Option String) (now : PyDatetime) : Option PyEvent :=
  if !is_future_event caption now then none
  else
    match extract_date_from_text caption now with
    | none => none
    | some event_date =>
      if toSecs event_date < toSecs now then none
      else
        some
          { event_name := resolveName caption
            date := fmtDate event_date
            time :=
              match extract_time_from_text caption with
              | some t => if t = "" then "TBD" else t
              | none => "TBD"
            location :=
              match extractLocation caption with
              | some l => if l = "" then "TBD" else l
              | none => "TBD"
            caption := caption
            source_account := username
            source_accounts := none
            days_until_event := deltaDays event_date now
            instagram_url := instagram_url }

/-! ## `remove_duplicate_events` -/

/-- The identity key: lowercased/stripped name, the date string, and the
lowercased/stripped location (kept literally when it is the `'TBD'`
sentinel). -/
def eventKey (e : PyEvent) : String × String × String :=
  (pyStrip (pyLower e.event_name), e.date,
   if e.location ≠ "TBD" then pyStrip (pyLower e.location) else "TBD")

/-- The recurring-series signal: combined lowercase name+caption text
contains both `karaoke` and `wednesday`. -/
def isKaraokeWednesday (e : PyEvent) : Bool :=
  let t := pyLower (e.event_name ++ " " ++ e.caption)
  strIn "karaoke" t && strIn "wednesday" t

/-- The karaoke-path source merge: create `source_accounts` from the
existing record's own source if absent, then add the incoming source
only when it is not already present. -/
def karaokeUpdate (r incoming : PyEvent) : PyEvent :=
  match r.source_accounts with
  | some l =>
    if incoming.source_account ∈ l then r
    else { r with source_accounts := some (l ++ [incoming.source_account]) }
  | none =>
    { r with
      source_accounts := some ([r.source_account] ++
        (if incoming.source_account ≠ r.source_account then
          [incoming.source_account] else [])) }

/-- The default-path source merge: create `source_accounts` if absent
(the Python code also deletes the now-redundant `source_account` key,
which no later read observes), then append the incoming source
unconditionally. -/
def defaultUpdate (r incoming : PyEvent) : PyEvent :=
  match r.source_accounts with
  | some l => { r with source_accounts := some (l ++ [incoming.source_account]) }
  | none =>
    { r with source_accounts := some [r.source_account, incoming.source_account] }

/-- Update the first list element satisfying `p` (the `for … break`
loops over `unique_events`). -/
def updateFirst (p : PyEvent → Bool) (f : PyEvent → PyEvent) :
    List PyEvent → List PyEvent
  | [] => []
  | r :: rs => if p r then f r :: rs else r :: updateFirst p f rs

/-- One iteration of the `for event in events` loop, acting on the pair
(`seen_events`, `unique_events`). -/
def dedupeStep (st : List (String × String × String) × List PyEvent)
    (e : PyEvent) : List (String × String × String) × List PyEvent :=
  if isKaraokeWednesday e && st.2.any isKaraokeWednesday then
    (st.1, updateFirst isKaraokeWednesday (fun r => karaokeUpdate r e) st.2)
  else if eventKey e ∈ st.1 then
    (st.1, updateFirst (fun r => decide (eventKey r = eventKey e))
      (fun r => defaultUpdate r e) st.2)
  else (eventKey e :: st.1, st.2 ++ [e])

/-- `remove_duplicate_events(self, events)`. -/
def remove_duplicate_events (events : List PyEvent) : List PyEvent :=
  (events.foldl dedupeStep ([], [])).2

/-! ## `filter_future_events` -/

/-- The per-event keep decision: parse the stored date string and keep
the record when its date is not before `now`; a parse failure keeps the
record. -/
def keepFuture (now : PyDatetime) (e : PyEvent) : Bool :=
  match parseYMD e.date with
  | some d => decide (toSecs now ≤ toSecs d)
  | none => true

/-- `filter_future_events(self, events)` with `datetime.now()` passed
explicitly as `now`. -/
def filter_future_events (now : PyDatetime) (events : List PyEvent) :
    List PyEvent :=
  events.filter (keepFuture now)

/-- The record's source-account collection as the spec's `sources`
reads it: `source_accounts` when present, else the singleton
`source_account`. -/
def sourcesOf (e : PyEvent) : List String :=
  match e.source_accounts with
  | some l => l
  | none => [e.source_account]

/-! ## Views and sample records used by the verification -/

/-- The fields of a record other than its source attribution: the
"frozen" part under merging. -/
def coreOf (e : PyEvent) : String × String × String × String × String :=
  (e.event_name, e.date, e.time, e.location, e.caption)

/-- `b` is `a` after zero or more source merges: same core fields,
source collection extended on the right. -/
def Grows (a b : PyEvent) : Prop :=
  coreOf b = coreOf a ∧ ∃ t, sourcesOf b = sourcesOf a ++ t

/-- A caption that classifies as a future event under any reference time
at or before 2026-03-15: keyword `party`, absolute date `15/3/2026`,
location `at Club x`. -/
def sampleCap : String := "party 15/3/2026 at Club x"

/-- `extract_event_details sampleCap "acct_a" none ⟨2025, 1, 1, 0⟩`. -/
def sampleRec : PyEvent :=
  { event_name := "party 15/3/2026 at Club x", date := "2026-03-15",
    time := "TBD", location := "Club x",
    caption := "party 15/3/2026 at Club x", source_account := "acct_a",
    source_accounts := none, days_until_event := 438,
    instagram_url := none }

/-- `extract_event_details sampleCap "acct_a" none ⟨2026, 3, 10, 0⟩`:
the same record but with `days_until_event` frozen at five days. -/
def marchRec : PyEvent :=
  { event_name := "party 15/3/2026 at Club x", date := "2026-03-15",
    time := "TBD", location := "Club x",
    caption := "party 15/3/2026 at Club x", source_account := "acct_a",
    source_accounts := none, days_until_event := 5,
    instagram_url := none }

/-- A record whose text has `karaoke` but not `wednesday` (no recurring
signal), sharing its identity key with `kw1`. -/
def kw0 : PyEvent :=
  { event_name := "Karaoke", date := "2025-01-01", time := "TBD",
    location := "Bar", caption := "fun night", source_account := "a",
    source_accounts := none, days_until_event := 5, instagram_url := none }

/-- A karaoke/wednesday-signal record with the same identity key as
`kw0`. -/
def kw1 : PyEvent :=
  { event_name := "Karaoke", date := "2025-01-01", time := "TBD",
    location := "Bar", caption := "every wednesday", source_account := "b",
    source_accounts := none, days_until_event := 5, instagram_url := none }

/-- A karaoke/wednesday-signal record with a different date and
location than `kw1`. -/
def kw2 : PyEvent :=
  { event_name := "Karaoke Wednesday", date := "2025-02-02", time := "TBD",
    location := "Club", caption := "come", source_account := "c",
    source_accounts := none, days_until_event := 5, instagram_url := none }

/-- The spec's Trivia Night example record, first source. -/
def trivia1 : PyEvent :=
  { event_name := "Trivia Night", date := "2025-05-01", time := "TBD",
    location := "The Lounge", caption := "come along", source_account := "s1",
    source_accounts := none, days_until_event := 5, instagram_url := none }

/-- The spec's Trivia Night example record, second source (same identity
key, different source). -/
def trivia2 : PyEvent :=
  { event_name := "Trivia Night", date := "2025-05-01", time := "TBD",
    location := "The Lounge", caption := "join in", source_account := "s2",
    source_accounts := none, days_until_event := 5, instagram_url := none }

/-- A record dated 2025-06-05. -/
def juneRec : PyEvent :=
  { event_name := "x", date := "2025-06-05", time := "TBD",
    location := "TBD", caption := "y", source_account := "a",
    source_accounts := none, days_until_event := 0, instagram_url := none }

/-- A record dated 2025-06-04. -/
def juneRecPrev : PyEvent :=
  { event_name := "x", date := "2025-06-04", time := "TBD",
    location := "TBD", caption := "y", source_account := "a",
    source_accounts := none, days_until_event := 0, instagram_url := none }

/-- A record whose date field is not a parsable `YYYY-MM-DD` string. -/
def badDateRec : PyEvent :=
  { event_name := "x", date := "soon", time := "TBD",
    location := "TBD", caption := "y", source_account := "a",
    source_accounts := none, days_until_event := 0, instagram_url := none }

/-! ### Calendar lemmas -/

theorem daysBeforeMonth_succ (y m : Nat) (h : 1 ≤ m) :
    daysBeforeMonth y (m + 1) = daysBeforeMonth y m + daysInMonth y m := by
  match m, h with
  | k + 1, _ => simp [daysBeforeMonth]

theorem daysBeforeMonth_year (y : Nat) :
    daysBeforeMonth y 12 + daysInMonth y 12 = daysInYear y := by
  cases h : isLeap y <;>
    simp [daysBeforeMonth, daysInMonth, daysInYear, h]

theorem daysBeforeYear_succ (y : Nat) (hy : 1 ≤ y) :
    daysBeforeYear (y + 1) = daysBeforeYear y + daysInYear y := by
  obtain ⟨n, rfl⟩ : ∃ n, y = n + 1 := ⟨y - 1, by omega⟩
  have e1 : daysBeforeYear (n + 1 + 1) =
      365 * (n + 1) + (n + 1) / 4 + (n + 1) / 400 - (n + 1) / 100 := by
    unfold daysBeforeYear
    norm_num
  have e2 : daysBeforeYear (n + 1) = 365 * n + n / 4 + n / 400 - n / 100 := by
    unfold daysBeforeYear
    norm_num
  rw [e1, e2]
  unfold daysInYear isLeap
  split_ifs with h
  · simp only [Bool.and_eq_true, beq_iff_eq, Bool.or_eq_true, bne_iff_ne,
      ne_eq] at h
    omega
  · simp only [Bool.and_eq_true, beq_iff_eq, Bool.or_eq_true, bne_iff_ne,
      ne_eq, not_and, not_or, not_not] at h
    omega

theorem one_le_daysInMonth (y m : Nat) (h1 : 1 ≤ m) (h2 : m ≤ 12) :
    1 ≤ daysInMonth y m := by
  interval_cases m <;> simp [daysInMonth] <;> split_ifs <;> norm_num

theorem daysBeforeMonth_le (y m d : Nat) (h1 : 1 ≤ m) (h2 : m ≤ 12)
    (h3 : d ≤ daysInMonth y m) :
    daysBeforeMonth y m + d ≤ daysInYear y := by
  interval_cases m <;>
    cases h : isLeap y <;>
      simp [daysBeforeMonth, daysInMonth, daysInYear, h] at h3 ⊢ <;>
        omega

theorem validDT_succDay {t : PyDatetime} (h : ValidDT t) :
    ValidDT (succDay t) := by
  obtain ⟨hy, hm1, hm2, hd1, hd2, hs⟩ := h
  unfold succDay
  split_ifs with h1 h2
  · exact ⟨hy, hm1, hm2, Nat.succ_le_succ (Nat.zero_le _), h1, hs⟩
  · exact ⟨hy, Nat.le_succ_of_le hm1, h2, le_refl 1,
      one_le_daysInMonth _ _ (Nat.succ_le_succ (Nat.zero_le _)) h2, hs⟩
  · exact ⟨Nat.le_succ_of_le hy, le_refl 1, by norm_num, le_refl 1,
      one_le_daysInMonth _ 1 (le_refl 1) (by norm_num), hs⟩

theorem ordOf_succDay {t : PyDatetime} (h : ValidDT t) :
    ordOf (succDay t) = ordOf t + 1 := by
  obtain ⟨hy, hm1, hm2, hd1, hd2, hs⟩ := h
  unfold succDay
  split_ifs with h1 h2v
  · show daysBeforeYear t.year + daysBeforeMonth t.year t.month + (t.day + 1) = _
    unfold ordOf
    omega
  · have hd : t.day = daysInMonth t.year t.month := by omega
    show daysBeforeYear t.year + daysBeforeMonth t.year (t.month + 1) + 1 = _
    unfold ordOf
    rw [daysBeforeMonth_succ _ _ hm1]
    omega
  · have hm : t.month = 12 := by omega
    rw [hm] at hd2 h1
    have hdim : daysInMonth t.year 12 = 31 := rfl
    rw [hdim] at hd2 h1
    have hyr := daysBeforeYear_succ t.year hy
    have hmy := daysBeforeMonth_year t.year
    rw [hdim] at hmy
    have h01 : daysBeforeMonth (t.year + 1) 1 = 0 := rfl
    show daysBeforeYear (t.year + 1) + daysBeforeMonth (t.year + 1) 1 + 1 = _
    unfold ordOf
    rw [h01, hyr, hm]
    omega

theorem validDT_addDays {t : PyDatetime} (h : ValidDT t) (k : Nat) :
    ValidDT (addDays t k) := by
  induction k with
  | zero => exact h
  | succ n ih => exact validDT_succDay ih

theorem ordOf_addDays {t : PyDatetime} (h : ValidDT t) (k : Nat) :
    ordOf (addDays t k) = ordOf t + k := by
  induction k with
  | zero => rfl
  | succ n ih =>
    show ordOf (succDay (addDays t n)) = _
    rw [ordOf_succDay (validDT_addDays h n), ih]
    omega

theorem secs_addDays (t : PyDatetime) (k : Nat) :
    (addDays t k).secs = t.secs := by
  induction k with
  | zero => rfl
  | succ n ih =>
    show (succDay (addDays t n)).secs = _
    unfold succDay
    split_ifs <;> simpa using ih

theorem weekdayOf_addDays {t : PyDatetime} (h : ValidDT t) (k : Nat) :
    weekdayOf (addDays t k) = (weekdayOf t + k) % 7 := by
  unfold weekdayOf
  have := ordOf_addDays h k
  omega

theorem toSecs_lt_addDays {t : PyDatetime} (h : ValidDT t) {k : Nat}
    (hk : 1 ≤ k) : toSecs t < toSecs (addDays t k) := by
  have h1 := ordOf_addDays h k
  have h2 := secs_addDays t k
  have hs : t.secs < 86400 := h.2.2.2.2.2
  unfold toSecs
  rw [h1, h2]
  nlinarith

theorem mkDatetime_some {y m d : Nat} {p : PyDatetime}
    (h : mkDatetime y m d = some p) :
    p = ⟨y, m, d, 0⟩ ∧ ValidDT p ∧ y ≤ 9999 := by
  unfold mkDatetime at h
  split_ifs at h with hc
  cases h
  exact ⟨rfl, ⟨hc.1, hc.2.2.1, hc.2.2.2.1, hc.2.2.2.2.1,
    hc.2.2.2.2.2, by norm_num⟩, hc.2.1⟩

theorem ordOf_lt_of_year_succ {a b : PyDatetime} (ha : ValidDT a)
    (hb : ValidDT b) (hy : b.year = a.year + 1) : ordOf a < ordOf b := by
  obtain ⟨hay, ham1, ham2, had1, had2, _⟩ := ha
  obtain ⟨hby, hbm1, hbm2, hbd1, hbd2, _⟩ := hb
  have h1 : daysBeforeMonth a.year a.month + a.day ≤ daysInYear a.year :=
    daysBeforeMonth_le _ _ _ ham1 ham2 had2
  have h2 : daysBeforeYear b.year = daysBeforeYear a.year + daysInYear a.year := by
    rw [hy]; exact daysBeforeYear_succ _ hay
  unfold ordOf
  omega

theorem toSecs_lt_of_year_succ {a b : PyDatetime} (ha : ValidDT a)
    (hb : ValidDT b) (hy : b.year = a.year + 1) : toSecs a < toSecs b := by
  have h := ordOf_lt_of_year_succ ha hb hy
  have hs : a.secs < 86400 := ha.2.2.2.2.2
  unfold toSecs
  nlinarith

/-! ### Merge lemmas -/

theorem grows_refl (a : PyEvent) : Grows a a := ⟨rfl, [], by simp⟩

theorem grows_trans {a b c : PyEvent} (h1 : Grows a b) (h2 : Grows b c) :
    Grows a c := by
  obtain ⟨hc1, t1, hs1⟩ := h1
  obtain ⟨hc2, t2, hs2⟩ := h2
  exact ⟨hc2.trans hc1, t1 ++ t2, by rw [hs2, hs1, List.append_assoc]⟩

theorem sourcesOf_none {e : PyEvent} (h : e.source_accounts = none) :
    sourcesOf e = [e.source_account] := by
  unfold sourcesOf
  rw [h]

theorem sourcesOf_some {e : PyEvent} {l : List String}
    (h : e.source_accounts = some l) : sourcesOf e = l := by
  unfold sourcesOf
  rw [h]

theorem karaokeUpdate_none (r e : PyEvent) (hsa : r.source_accounts = none) :
    karaokeUpdate r e = { r with source_accounts := some ([r.source_account] ++
      (if e.source_account ≠ r.source_account then [e.source_account]
       else [])) } := by
  unfold karaokeUpdate
  rw [hsa]

theorem karaokeUpdate_some (r e : PyEvent) (l : List String)
    (hsa : r.source_accounts = some l) :
    karaokeUpdate r e = if e.source_account ∈ l then r
      else { r with source_accounts := some (l ++ [e.source_account]) } := by
  unfold karaokeUpdate
  rw [hsa]

theorem defaultUpdate_none (r e : PyEvent) (hsa : r.source_accounts = none) :
    defaultUpdate r e =
      { r with
        source_accounts := some ([r.source_account] ++ [e.source_account]) } := by
  unfold defaultUpdate
  rw [hsa]
  rfl

theorem defaultUpdate_some (r e : PyEvent) (l : List String)
    (hsa : r.source_accounts = some l) :
    defaultUpdate r e =
      { r with source_accounts := some (l ++ [e.source_account]) } := by
  unfold defaultUpdate
  rw [hsa]

theorem karaokeUpdate_grows (r e : PyEvent) : Grows r (karaokeUpdate r e) := by
  rcases hsa : r.source_accounts with _ | l
  · rw [karaokeUpdate_none r e hsa]
    refine ⟨rfl, (if e.source_account ≠ r.source_account
      then [e.source_account] else []), ?_⟩
    rw [sourcesOf_some rfl, sourcesOf_none hsa]
  · rw [karaokeUpdate_some r e l hsa]
    split_ifs with hm
    · exact grows_refl r
    · refine ⟨rfl, [e.source_account], ?_⟩
      rw [sourcesOf_some rfl, sourcesOf_some hsa]

theorem defaultUpdate_grows (r e : PyEvent) : Grows r (defaultUpdate r e) := by
  rcases hsa : r.source_accounts with _ | l
  · rw [defaultUpdate_none r e hsa]
    refine ⟨rfl, [e.source_account], ?_⟩
    rw [sourcesOf_some rfl, sourcesOf_none hsa]
  · rw [defaultUpdate_some r e l hsa]
    refine ⟨rfl, [e.source_account], ?_⟩
    rw [sourcesOf_some rfl, sourcesOf_some hsa]

theorem updateFirst_getElem (p : PyEvent → Bool) (f : PyEvent → PyEvent) :
    ∀ (l : List PyEvent) (i : Nat) (r : PyEvent), l[i]? = some r →
      ∃ r', (updateFirst p f l)[i]? = some r' ∧ (r' = r ∨ r' = f r) := by
  intro l
  induction l with
  | nil => intro i r h; simp at h
  | cons x xs ih =>
    intro i r h
    unfold updateFirst
    split_ifs with hx
    · cases i with
      | zero =>
        simp at h
        subst h
        exact ⟨f x, by simp, Or.inr rfl⟩
      | succ n =>
        simp at h ⊢
        exact ⟨r, h, Or.inl rfl⟩
    · cases i with
      | zero =>
        simp at h
        subst h
        exact ⟨x, by simp, Or.inl rfl⟩
      | succ n =>
        simp at h ⊢
        exact ih n r h

theorem updateFirst_mem (p : PyEvent → Bool) (f : PyEvent → PyEvent) :
    ∀ (l : List PyEvent) (r' : PyEvent), r' ∈ updateFirst p f l →
      ∃ r ∈ l, r' = r ∨ r' = f r := by
  intro l
  induction l with
  | nil => intro r' h; simp [updateFirst] at h
  | cons x xs ih =>
    intro r' h
    unfold updateFirst at h
    split_ifs at h with hx
    · rcases List.mem_cons.mp h with h | h
      · exact ⟨x, List.mem_cons_self x xs, Or.inr h⟩
      · exact ⟨r', List.mem_cons_of_mem _ h, Or.inl rfl⟩
    · rcases List.mem_cons.mp h with h | h
      · exact ⟨x, List.mem_cons_self x xs, Or.inl h⟩
      · obtain ⟨r, hr, ho⟩ := ih r' h
        exact ⟨r, List.mem_cons_of_mem _ hr, ho⟩

theorem dedupeStep_frame (st : List (String × String × String) × List PyEvent)
    (e : PyEvent) (i : Nat) (r : PyEvent) (h : st.2[i]? = some r) :
    ∃ r', (dedupeStep st e).2[i]? = some r' ∧ Grows r r' := by
  unfold dedupeStep
  split_ifs with h1 h2
  · obtain ⟨r', hr', ho⟩ := updateFirst_getElem _ _ st.2 i r h
    refine ⟨r', hr', ?_⟩
    rcases ho with rfl | rfl
    exacts [grows_refl _, karaokeUpdate_grows _ e]
  · obtain ⟨r', hr', ho⟩ := updateFirst_getElem _ _ st.2 i r h
    refine ⟨r', hr', ?_⟩
    rcases ho with rfl | rfl
    exacts [grows_refl _, defaultUpdate_grows _ e]
  · have hlt : i < st.2.length := by
      by_contra hc
      rw [List.getElem?_eq_none (Nat.le_of_not_lt hc)] at h
      exact Option.noConfusion h
    refine ⟨r, ?_, grows_refl r⟩
    rw [List.getElem?_append, if_pos hlt]
    exact h

theorem dedupeStep_origin (st : List (String × String × String) × List PyEvent)
    (e r' : PyEvent) (h : r' ∈ (dedupeStep st e).2) :
    (∃ r ∈ st.2, Grows r r') ∨ Grows e r' := by
  unfold dedupeStep at h
  split_ifs at h with h1 h2
  · obtain ⟨r, hr, ho⟩ := updateFirst_mem _ _ st.2 r' h
    refine Or.inl ⟨r, hr, ?_⟩
    rcases ho with rfl | rfl
    exacts [grows_refl _, karaokeUpdate_grows _ e]
  · obtain ⟨r, hr, ho⟩ := updateFirst_mem _ _ st.2 r' h
    refine Or.inl ⟨r, hr, ?_⟩
    rcases ho with rfl | rfl
    exacts [grows_refl _, defaultUpdate_grows _ e]
  · rcases List.mem_append.mp h with h | h
    · exact Or.inl ⟨r', h, grows_refl r'⟩
    · simp at h
      subst h
      exact Or.inr (grows_refl _)

theorem dedupeFold_frame :
    ∀ (es : List PyEvent) (st : List (String × String × String) × List PyEvent)
      (i : Nat) (r : PyEvent), st.2[i]? = some r →
      ∃ r', ((es.foldl dedupeStep st).2)[i]? = some r' ∧ Grows r r' := by
  intro es
  induction es with
  | nil => exact fun st i r h => ⟨r, h, grows_refl r⟩
  | cons x xs ih =>
    intro st i r h
    obtain ⟨r1, h1, g1⟩ := dedupeStep_frame st x i r h
    obtain ⟨r2, h2, g2⟩ := ih (dedupeStep st x) i r1 h1
    exact ⟨r2, h2, grows_trans g1 g2⟩

theorem dedupeFold_origin :
    ∀ (es : List PyEvent) (st : List (String × String × String) × List PyEvent)
      (r' : PyEvent), r' ∈ (es.foldl dedupeStep st).2 →
      (∃ r ∈ st.2, Grows r r') ∨ (∃ e ∈ es, Grows e r') := by
  intro es
  induction es with
  | nil => exact fun st r' h => Or.inl ⟨r', h, grows_refl r'⟩
  | cons x xs ih =>
    intro st r' h
    rcases ih (dedupeStep st x) r' h with ⟨r, hr, hg⟩ | ⟨e, he, hg⟩
    · rcases dedupeStep_origin st x r hr with ⟨r0, hr0, hg0⟩ | hg0
      · exact Or.inl ⟨r0, hr0, grows_trans hg0 hg⟩
      · exact Or.inr ⟨x, List.mem_cons_self x xs, grows_trans hg0 hg⟩
    · exact Or.inr ⟨e, List.mem_cons_of_mem _ he, hg⟩

/-! ### Extraction and parsing lemmas -/

theorem eed_some_fields {caption u : String} {url : Option String}
    {now : PyDatetime} {rec : PyEvent}
    (h : extract_event_details caption u url now = some rec) :
    ∃ d, extract_date_from_text caption now = some d ∧
      ¬ toSecs d < toSecs now ∧ rec.source_accounts = none ∧
      rec.source_account = u ∧ rec.days_until_event = deltaDays d now ∧
      rec.date = fmtDate d := by
  unfold extract_event_details at h
  split_ifs at h with hf
  rcases hd : extract_date_from_text caption now with _ | d
  · rw [hd] at h
    exact Option.noConfusion h
  · rw [hd] at h
    simp only at h
    split_ifs at h with hlt
    injection h with h'
    subst h'
    exact ⟨d, rfl, hlt, rfl, rfl, rfl, rfl⟩

theorem eed_none_of_past {caption u : String} {url : Option String}
    {now d : PyDatetime} (hd : extract_date_from_text caption now = some d)
    (hlt : toSecs d < toSecs now) :
    extract_event_details caption u url now = none := by
  unfold extract_event_details
  split_ifs with hf
  · rfl
  · rw [hd]
    simp only
    rw [if_pos hlt]

theorem eed_isSome {caption u : String} {url : Option String}
    {now d : PyDatetime} (hf : is_future_event caption now = true)
    (hd : extract_date_from_text caption now = some d)
    (hge : toSecs now ≤ toSecs d) :
    (extract_event_details caption u url now).isSome = true := by
  unfold extract_event_details
  rw [hf]
  simp only [Bool.not_true, Bool.false_eq_true, if_false]
  rw [hd]
  simp only
  rw [if_neg (Nat.not_lt.mpr hge)]
  rfl

theorem parseYMD_fields {s : String} {d : PyDatetime}
    (h : parseYMD s = some d) : ValidDT d ∧ d.secs = 0 := by
  unfold parseYMD at h
  rcases hsp : splitOnChar '-' s.data with _ | ⟨ys, _ | ⟨ms, _ | ⟨ds, _ | ⟨x, xs⟩⟩⟩⟩ <;>
      rw [hsp] at h
  · exact Option.noConfusion h
  · exact Option.noConfusion h
  · exact Option.noConfusion h
  · simp only at h
    split_ifs at h with hc
    obtain ⟨hd, hv, _⟩ := mkDatetime_some h
    exact ⟨hv, by rw [hd]⟩
  · exact Option.noConfusion h

/-! ## The claims -/

/-- C1: the claim says `tomorrow` resolves to `now + 1 day`, `next week`
to `+7 days`, `next month`/`next year` to one calendar month/year, and
`next <weekday>` to the next strict occurrence of the weekday.  In the
code the relative-keyword pattern is dispatched to the named-month
branch (its pattern string contains `month`), so the handlers for
`tomorrow`/`next week`/`next month`/`next year` are unreachable and
those texts resolve to no date at all; only the `next <weekday>` part
behaves as claimed, via fall-through to the bare-weekday pattern
(2025-06-03 is a Tuesday, and `next tuesday` resolves to 2025-06-10,
a full week later). -/
theorem claim_C1 :
    extract_date_from_text "tomorrow" ⟨2025, 6, 1, 0⟩ = none ∧
    extract_date_from_text "next week" ⟨2025, 6, 1, 0⟩ = none ∧
    extract_date_from_text "next month" ⟨2025, 6, 1, 0⟩ = none ∧
    extract_date_from_text "next year" ⟨2025, 6, 1, 0⟩ = none ∧
    weekdayOf ⟨2025, 6, 3, 0⟩ = 1 ∧
    extract_date_from_text "next tuesday" ⟨2025, 6, 3, 0⟩ =
      some ⟨2025, 6, 10, 0⟩ := by
  decide

/-- C9: a caption containing no event-vocabulary term as a substring of
its lowercased text is never classified as a prospective event,
whatever date, time, location or call-to-action cues it has. -/
theorem claim_C9 :
    ∀ (caption : String) (now : PyDatetime),
      (∀ kw ∈ event_keywords, strIn kw (pyLower caption) = false) →
      is_future_event caption now = false := by
  intro caption now h
  have hk : event_keywords.any (fun k => strIn k (pyLower caption)) = false :=
    List.any_eq_false.mpr (fun k hkm => by simp [h k hkm])
  simp [is_future_event, hk]

/-- Witness for C9: a caption full of date/time/location cues but with
no vocabulary term is rejected. -/
theorem claim_C9_witness :
    is_future_event "see you soon at the place tonight 9pm"
      ⟨2025, 1, 1, 0⟩ = false :=
  claim_C9 _ _ (by decide)

/-- C10: a record whose `date` string does not parse as `YYYY-MM-DD` is
always retained by `filter_future_events` (the `ValueError` handler
keeps the record). -/
theorem claim_C10 :
    ∀ (now : PyDatetime) (evs : List PyEvent) (e : PyEvent),
      e ∈ evs → parseYMD e.date = none →
      e ∈ filter_future_events now evs := by
  intro now evs e he hp
  unfold filter_future_events
  exact List.mem_filter.mpr ⟨he, by simp [keepFuture, hp]⟩

/-- Witness for C10: a record dated `soon` bypasses the filter. -/
theorem claim_C10_witness :
    badDateRec ∈ filter_future_events ⟨2025, 1, 1, 0⟩ [badDateRec] :=
  claim_C10 ⟨2025, 1, 1, 0⟩ [badDateRec] badDateRec (by decide) (by decide)

/-- C2 (amended): the future boundary is a full-timestamp comparison,
not a calendar-day one.  A record is retained iff the midnight datetime
parsed from its date string is not strictly before `now`; hence a
same-calendar-day record is retained exactly when `now` is at midnight,
and a record dated a strictly earlier day is always dropped.
`extract_event_details` likewise rejects a caption exactly when its
resolved datetime is strictly before `now`. -/
theorem claim_C2 :
    (∀ (now : PyDatetime) (evs : List PyEvent) (e : PyEvent) (d : PyDatetime),
        parseYMD e.date = some d →
        (e ∈ filter_future_events now evs ↔
          e ∈ evs ∧ toSecs now ≤ toSecs d)) ∧
    (∀ (now : PyDatetime) (evs : List PyEvent) (e : PyEvent) (d : PyDatetime),
        parseYMD e.date = some d → e ∈ evs → d.year = now.year →
        d.month = now.month → d.day = now.day → now.secs = 0 →
        e ∈ filter_future_events now evs) ∧
    (∀ (now : PyDatetime) (evs : List PyEvent) (e : PyEvent) (d : PyDatetime),
        parseYMD e.date = some d → ordOf d < ordOf now →
        e ∉ filter_future_events now evs) ∧
    (∀ (caption u : String) (url : Option String) (now d : PyDatetime),
        extract_date_from_text caption now = some d →
        toSecs d < toSecs now →
        extract_event_details caption u url now = none) ∧
    (∀ (caption u : String) (url : Option String) (now d : PyDatetime),
        is_future_event caption now = true →
        extract_date_from_text caption now = some d →
        toSecs now ≤ toSecs d →
        (extract_event_details caption u url now).isSome = true) := by
  refine ⟨?_, ?_, ?_, ?_, ?_⟩
  · intro now evs e d hp
    unfold filter_future_events
    rw [List.mem_filter]
    unfold keepFuture
    rw [hp]
    simp
  · intro now evs e d hp he h1 h2 h3 h4
    unfold filter_future_events
    rw [List.mem_filter]
    refine ⟨he, ?_⟩
    unfold keepFuture
    rw [hp]
    simp only [decide_eq_true_eq]
    have hs0 : d.secs = 0 := (parseYMD_fields hp).2
    have ho : ordOf d = ordOf now := by
      unfold ordOf
      rw [h1, h2, h3]
    unfold toSecs
    omega
  · intro now evs e d hp hlt hmem
    have hs0 : d.secs = 0 := (parseYMD_fields hp).2
    unfold filter_future_events at hmem
    have hke := (List.mem_filter.mp hmem).2
    unfold keepFuture at hke
    rw [hp] at hke
    simp only [decide_eq_true_eq] at hke
    unfold toSecs at hke
    omega
  · intro caption u url now d hd hlt
    exact eed_none_of_past hd hlt
  · intro caption u url now d hf hd hge
    exact eed_isSome hf hd hge

/-- Witness for C2: at a midnight reference time a same-day record is
retained and a previous-day record is dropped. -/
theorem claim_C2_witness :
    juneRec ∈ filter_future_events ⟨2025, 6, 5, 0⟩ [juneRec] ∧
    juneRecPrev ∉ filter_future_events ⟨2025, 6, 5, 0⟩ [juneRecPrev] :=
  ⟨claim_C2.2.1 ⟨2025, 6, 5, 0⟩ [juneRec] juneRec ⟨2025, 6, 5, 0⟩ (by decide)
      (by decide) rfl rfl rfl rfl,
   claim_C2.2.2.1 ⟨2025, 6, 5, 0⟩ [juneRecPrev] juneRecPrev ⟨2025, 6, 4, 0⟩
      (by decide) (by decide)⟩

/-- Counterexample to C2 as stated: with the reference time one second
past midnight of 2025-06-05, a record resolved to that same calendar
date is rejected by `extract_event_details` and dropped by
`filter_future_events`, so the boundary is not inclusive of the
current day. -/
theorem claim_C2_counterexample :
    parseYMD juneRec.date = some ⟨2025, 6, 5, 0⟩ ∧
    (⟨2025, 6, 5, 1⟩ : PyDatetime).year = 2025 ∧
    (⟨2025, 6, 5, 1⟩ : PyDatetime).month = 6 ∧
    (⟨2025, 6, 5, 1⟩ : PyDatetime).day = 5 ∧
    filter_future_events ⟨2025, 6, 5, 1⟩ [juneRec] = [] ∧
    extract_date_from_text "party 5/6/2025 at Club x" ⟨2025, 6, 5, 1⟩ =
      some ⟨2025, 6, 5, 0⟩ ∧
    extract_event_details "party 5/6/2025 at Club x" "a" none
      ⟨2025, 6, 5, 1⟩ = none := by
  decide

/-- C3 (amended): extraction always produces a singleton source
collection (the posting account), and merging keeps the collection
non-empty; but the no-duplicates half of the claim fails on the default
identity-key merge path, which appends the incoming source
unconditionally (see the counterexample). -/
theorem claim_C3 :
    (∀ (caption u : String) (url : Option String) (now : PyDatetime)
        (rec : PyEvent), extract_event_details caption u url now = some rec →
        rec.source_accounts = none ∧ sourcesOf rec = [u]) ∧
    (∀ events : List PyEvent, (∀ e ∈ events, sourcesOf e ≠ []) →
        ∀ r ∈ remove_duplicate_events events, sourcesOf r ≠ []) := by
  constructor
  · intro caption u url now rec h
    obtain ⟨d, _, _, hsa, hsc, _, _⟩ := eed_some_fields h
    refine ⟨hsa, ?_⟩
    rw [sourcesOf_none hsa, hsc]
  · intro events hne r hr
    unfold remove_duplicate_events at hr
    rcases dedupeFold_origin events ([], []) r hr with ⟨r0, hr0, _⟩ | ⟨e, he, hg⟩
    · simp at hr0
    · obtain ⟨_, t, hst⟩ := hg
      rw [hst]
      intro hx
      exact hne e he (List.append_eq_nil.mp hx).1

/-- Witness for C3: the extracted sample record has the posting account
as its only source, and survives deduplication with a non-empty source
collection. -/
theorem claim_C3_witness :
    sourcesOf sampleRec = ["acct_a"] ∧ sourcesOf sampleRec ≠ [] :=
  ⟨(claim_C3.1 sampleCap "acct_a" none ⟨2025, 1, 1, 0⟩ sampleRec
      (by decide)).2,
   claim_C3.2 [sampleRec] (by decide) sampleRec (by decide)⟩

/-- Counterexample to C3 as stated: two extracted records from the same
account with the same identity key (the same caption posted twice)
merge through the default path, which appends the source
unconditionally, leaving a duplicated source collection. -/
theorem claim_C3_counterexample :
    extract_event_details sampleCap "acct_a" none ⟨2025, 1, 1, 0⟩ =
      some sampleRec ∧
    remove_duplicate_events [sampleRec, sampleRec] =
      [{ sampleRec with source_accounts := some ["acct_a", "acct_a"] }] ∧
    sourcesOf
      { sampleRec with source_accounts := some ["acct_a", "acct_a"] } =
      ["acct_a", "acct_a"] ∧
    ¬ (["acct_a", "acct_a"] : List String).Nodup := by
  refine ⟨by decide, by decide, rfl, by decide⟩

/-- C6 (amended): `days_until` is frozen at extraction time — it equals
the resolved date minus the extraction-time reference clock — and
`filter_future_events` passes records through unchanged, recomputing
nothing. -/
theorem claim_C6 :
    (∀ (caption u : String) (url : Option String) (now : PyDatetime)
        (rec : PyEvent), extract_event_details caption u url now = some rec →
        ∃ d, extract_date_from_text caption now = some d ∧
          rec.days_until_event = deltaDays d now) ∧
    (∀ (now : PyDatetime) (evs : List PyEvent) (r : PyEvent),
        r ∈ filter_future_events now evs → r ∈ evs) := by
  constructor
  · intro caption u url now rec h
    obtain ⟨d, hd, _, _, _, hdu, _⟩ := eed_some_fields h
    exact ⟨d, hd, hdu⟩
  · intro now evs r h
    unfold filter_future_events at h
    exact (List.mem_filter.mp h).1

/-- Witness for C6: the sample record extracted five days before its
date carries `days_until_event` equal to that extraction-time
difference, and passes through the filter unchanged. -/
theorem claim_C6_witness :
    (∃ d, extract_date_from_text sampleCap ⟨2026, 3, 10, 0⟩ = some d ∧
      marchRec.days_until_event = deltaDays d ⟨2026, 3, 10, 0⟩) ∧
    marchRec ∈ [marchRec] :=
  ⟨claim_C6.1 sampleCap "acct_a" none ⟨2026, 3, 10, 0⟩ marchRec (by decide),
   claim_C6.2 ⟨2026, 3, 12, 0⟩ [marchRec] marchRec (by decide)⟩

/-- Counterexample to C6 as stated: a record extracted on 2026-03-10
(`days_until_event = 5`) still carries 5 after the future filter run on
2026-03-12, although the recomputed difference would be 3. -/
theorem claim_C6_counterexample :
    ¬ (∀ (now1 now2 : PyDatetime) (caption u : String) (rec : PyEvent)
          (d : PyDatetime),
        extract_event_details caption u none now1 = some rec →
        rec ∈ filter_future_events now2 [rec] →
        parseYMD rec.date = some d →
        rec.days_until_event = deltaDays d now2) := by
  intro hcl
  have h := hcl ⟨2026, 3, 10, 0⟩ ⟨2026, 3, 12, 0⟩ sampleCap "acct_a" marchRec
    ⟨2026, 3, 15, 0⟩ (by decide) (by decide) (by decide)
  exact absurd h (by decide)

/-- C7: merging is a pure source-set extension.  Every canonical record
position of `remove_duplicate_events` persists under further input: its
core fields (name, date, time, location, caption) are unchanged and its
source collection only grows on the right; and every output record's
core fields are exactly those of some input record (the record that
first created it). -/
theorem claim_C7 :
    (∀ (es₁ es₂ : List PyEvent) (i : Nat) (r₁ : PyEvent),
        (remove_duplicate_events es₁)[i]? = some r₁ →
        ∃ r₂, (remove_duplicate_events (es₁ ++ es₂))[i]? = some r₂ ∧
          coreOf r₂ = coreOf r₁ ∧ ∃ t, sourcesOf r₂ = sourcesOf r₁ ++ t) ∧
    (∀ (es : List PyEvent) (r : PyEvent), r ∈ remove_duplicate_events es →
        ∃ e ∈ es, coreOf r = coreOf e ∧ ∃ t, sourcesOf r = sourcesOf e ++ t) := by
  constructor
  · intro es₁ es₂ i r₁ h
    unfold remove_duplicate_events at h ⊢
    rw [List.foldl_append]
    obtain ⟨r₂, h2, g⟩ :=
      dedupeFold_frame es₂ (es₁.foldl dedupeStep ([], [])) i r₁ h
    exact ⟨r₂, h2, g.1, g.2⟩
  · intro es r h
    unfold remove_duplicate_events at h
    rcases dedupeFold_origin es ([], []) r h with ⟨r0, hr0, _⟩ | ⟨e, he, hg⟩
    · simp at hr0
    · exact ⟨e, he, hg.1, hg.2⟩

/-- Witness for C7 at the spec's Trivia Night example: after the
second-source duplicate is folded in, position 0 still holds the
first-seen record's core fields with an extended source collection. -/
theorem claim_C7_witness :
    ∃ r₂, (remove_duplicate_events ([trivia1] ++ [trivia2]))[0]? = some r₂ ∧
      coreOf r₂ = coreOf trivia1 ∧
      ∃ t, sourcesOf r₂ = sourcesOf trivia1 ++ t :=
  claim_C7.1 [trivia1] [trivia2] 0 trivia1 (by decide)

/-- C4 (amended): when the input consists of the two signal records
themselves (so that no earlier accumulated record captures the first
one through the identity key), they do merge into a single canonical
record: the later record is discarded, its source folded into the
first record's collection, and the first record's fields survive. -/
theorem claim_C4 :
    ∀ e1 e2 : PyEvent, isKaraokeWednesday e1 = true →
      isKaraokeWednesday e2 = true → e1.source_accounts = none →
      remove_duplicate_events [e1, e2] =
        [{ e1 with source_accounts := some ([e1.source_account] ++
            (if e2.source_account ≠ e1.source_account then
              [e2.source_account] else [])) }] := by
  intro e1 e2 h1 h2 hs
  show (dedupeStep (dedupeStep ([], []) e1) e2).2 = _
  simp [dedupeStep, h1, h2, updateFirst, karaokeUpdate_none e1 e2 hs]

/-- Witness for C4: the two karaoke/wednesday records with different
dates and locations collapse into one canonical record. -/
theorem claim_C4_witness :
    remove_duplicate_events [kw1, kw2] =
      [{ kw1 with source_accounts := some ([kw1.source_account] ++
          (if kw2.source_account ≠ kw1.source_account then
            [kw2.source_account] else [])) }] :=
  claim_C4 kw1 kw2 (by decide) (by decide) rfl

/-- Counterexample to C4 as stated: with a non-signal record `kw0`
sharing `kw1`'s identity key placed first, the first signal record
`kw1` finds no signal match and falls through to the identity-key path,
where it is folded into `kw0`; the second signal record `kw2` then
becomes its own canonical record.  The two signal records `kw1` and
`kw2` are never merged into a single canonical record. -/
theorem claim_C4_counterexample :
    isKaraokeWednesday kw1 = true ∧ isKaraokeWednesday kw2 = true ∧
    kw1.date ≠ kw2.date ∧ kw1.location ≠ kw2.location ∧
    isKaraokeWednesday kw0 = false ∧
    remove_duplicate_events [kw0, kw1, kw2] =
      [{ kw0 with source_accounts := some ["a", "b"] }, kw2] := by
  decide

/-- C8: for a text whose lowercase form has no match of the absolute
day/month/year pattern and whose first day/month match is `(d, m)`,
whenever the pattern-2 branch constructs a date (no `ValueError` is
raised), the resolver returns it: the year is inferred as the
reference year, rolled forward exactly one year when the inferred date
lies strictly before the reference time, and the result is never in the
past. -/
theorem claim_C8 :
    ∀ (now : PyDatetime) (text : String) (d m : Nat) (p : PyDatetime),
      ValidDT now → findP1 (pyLower text) = none →
      findP2 (pyLower text) = some (d, m) → branch2 now d m = some p →
      extract_date_from_text text now = some p ∧ toSecs now ≤ toSecs p ∧
        ((p = ⟨now.year, m, d, 0⟩ ∧ ¬ toSecs p < toSecs now) ∨
         (p = ⟨now.year + 1, m, d, 0⟩ ∧
           toSecs (⟨now.year, m, d, 0⟩ : PyDatetime) < toSecs now)) := by
  intro now text d m p hv h1 h2 hb
  have hmain : extract_date_from_text text now = some p := by
    simp only [extract_date_from_text, dateStage2, h1, h2, hb]
  unfold branch2 at hb
  rcases hq : mkDatetime now.year m d with _ | q
  · rw [hq] at hb
    exact Option.noConfusion hb
  · rw [hq] at hb
    simp only at hb
    obtain ⟨hqe, hvq, _⟩ := mkDatetime_some hq
    split_ifs at hb with hlt
    · obtain ⟨hpe, hvp, _⟩ := mkDatetime_some hb
      have hy : p.year = now.year + 1 := by rw [hpe]
      have hlt2 : toSecs now < toSecs p := toSecs_lt_of_year_succ hv hvp hy
      refine ⟨hmain, le_of_lt hlt2, Or.inr ⟨hpe, ?_⟩⟩
      rw [← hqe]
      exact hlt
    · injection hb with hb'
      subst hb'
      exact ⟨hmain, Nat.le_of_not_lt hlt, Or.inl ⟨hqe, hlt⟩⟩

/-- Witness for C8: the spec's two examples, `5/6` resolving to the
reference-year June 5 in January and to the next year's June 5 in
December. -/
theorem claim_C8_witness :
    extract_date_from_text "5/6" ⟨2025, 1, 1, 0⟩ = some ⟨2025, 6, 5, 0⟩ ∧
    extract_date_from_text "5/6" ⟨2025, 12, 1, 0⟩ = some ⟨2026, 6, 5, 0⟩ :=
  ⟨(claim_C8 ⟨2025, 1, 1, 0⟩ "5/6" 5 6 ⟨2025, 6, 5, 0⟩ (by decide) (by decide)
      (by decide) (by decide)).1,
   (claim_C8 ⟨2025, 12, 1, 0⟩ "5/6" 5 6 ⟨2026, 6, 5, 0⟩ (by decide) (by decide)
      (by decide) (by decide)).1⟩

/-- C5 (amended): `next weekend` resolves to the nearest Saturday
strictly after the reference time — between one and seven days ahead,
with the time of day preserved.  Only when the reference day is itself
a Saturday does it advance a full week; on every other weekday it
returns the upcoming Saturday with no additional week, contrary to the
claim's "always adds a full additional week". -/
theorem claim_C5 :
    ∀ now : PyDatetime, ValidDT now →
      ∃ k : Nat, extract_date_from_text "next weekend" now =
          some (addDays now k) ∧ 1 ≤ k ∧ k ≤ 7 ∧
        weekdayOf (addDays now k) = 5 ∧ (weekdayOf now = 5 → k = 7) ∧
        (weekdayOf now ≠ 5 → k ≤ 6) ∧
        toSecs now < toSecs (addDays now k) := by
  intro now hv
  have hred : extract_date_from_text "next weekend" now =
      some (addDays now
        (if pyMod (5 - (weekdayOf now : Int)) 7 = 0 then (7 : Int)
         else pyMod (5 - (weekdayOf now : Int)) 7).toNat) := rfl
  have hw7 : weekdayOf now < 7 := by
    unfold weekdayOf
    omega
  have hm0 : pyMod (5 - (weekdayOf now : Int)) 7 =
      (5 - (weekdayOf now : Int)) % 7 := rfl
  rw [hm0] at hred
  have h0 : 0 ≤ (5 - (weekdayOf now : Int)) % 7 :=
    Int.emod_nonneg _ (by norm_num)
  have h1 : (5 - (weekdayOf now : Int)) % 7 < 7 :=
    Int.emod_lt_of_pos _ (by norm_num)
  have hdiv := Int.ediv_add_emod (5 - (weekdayOf now : Int)) 7
  by_cases hz : (5 - (weekdayOf now : Int)) % 7 = 0
  · rw [if_pos hz] at hred
    have hw5 : weekdayOf now = 5 := by
      omega
    refine ⟨7, hred, by norm_num, by norm_num, ?_, fun _ => rfl, ?_, ?_⟩
    · rw [weekdayOf_addDays hv 7, hw5]
    · intro hne
      exact absurd hw5 hne
    · exact toSecs_lt_addDays hv (by norm_num)
  · rw [if_neg hz] at hred
    refine ⟨((5 - (weekdayOf now : Int)) % 7).toNat, hred, ?_, ?_,
      ?_, ?_, ?_, ?_⟩
    · omega
    · omega
    · rw [weekdayOf_addDays hv _]
      omega
    · intro h5
      rw [h5] at hz
      exact absurd (by decide) hz
    · intro hne
      omega
    · refine toSecs_lt_addDays hv ?_
      omega

/-- Witness for C5 at a Monday reference time. -/
theorem claim_C5_witness :
    ValidDT ⟨2025, 6, 2, 0⟩ ∧
    (∃ k : Nat, extract_date_from_text "next weekend" ⟨2025, 6, 2, 0⟩ =
        some (addDays ⟨2025, 6, 2, 0⟩ k) ∧ 1 ≤ k ∧ k ≤ 7 ∧
      weekdayOf (addDays ⟨2025, 6, 2, 0⟩ k) = 5 ∧
      (weekdayOf ⟨2025, 6, 2, 0⟩ = 5 → k = 7) ∧
      (weekdayOf ⟨2025, 6, 2, 0⟩ ≠ 5 → k ≤ 6) ∧
      toSecs ⟨2025, 6, 2, 0⟩ < toSecs (addDays ⟨2025, 6, 2, 0⟩ k)) :=
  ⟨by decide, claim_C5 ⟨2025, 6, 2, 0⟩ (by decide)⟩

/-- Counterexample to C5 as stated: on Monday 2025-06-02 the code
resolves `next weekend` to the nearest Saturday 2025-06-07, not to a
Saturday a full additional week ahead (2025-06-14). -/
theorem claim_C5_counterexample :
    extract_date_from_text "next weekend" ⟨2025, 6, 2, 0⟩ =
      some ⟨2025, 6, 7, 0⟩ ∧
    weekdayOf ⟨2025, 6, 2, 0⟩ = 0 ∧ weekdayOf ⟨2025, 6, 7, 0⟩ = 5 ∧
    addDays ⟨2025, 6, 2, 0⟩ 12 = ⟨2025, 6, 14, 0⟩ ∧
    (⟨2025, 6, 7, 0⟩ : PyDatetime) ≠ ⟨2025, 6, 14, 0⟩ := by
  decide
